import Mathlib

/-!
Verification of the filtering-and-aggregation pipeline of the Vancouver
Airbnb dashboard (src/App.py) against its specification.

The dataframe is embedded shallowly as a `List Listing` (one `Listing`
per retained row, in original row order).  Real-valued columns are
modelled as rationals; pandas NaN sentinels for empty means are modelled
as `none`.  Dataframe operations used by the app are translated
operation by operation:

* boolean-mask filtering (`df[mask]`, App.py lines 115-121) becomes
  `List.filter` with the conjunction of the five predicates;
* `Series.between` is inclusive on both ends, `Series.isin` is list
  membership;
* `df.nsmallest(n, 'price')` (line 196) keeps the first `n` rows of the
  stable ascending ordering by price (pandas `keep='first'`), i.e. a
  stable sort by price followed by `take n`;
* `groupby(k)` (lines 180, 233) produces one group per distinct key, keys
  in ascending order (pandas `sort=True` default), and `sort_values`
  re-sorts the aggregated rows keeping ties in their prior order;
* `df_filtered['last_review_year'] = df_filtered['last_review'].dt.year`
  (line 200) adds a derived column in place.
-/

namespace Dashboard

/-- A calendar date, as produced by `pd.to_datetime` on the
`last_review` column (App.py line 24).  Only the components are kept;
string-to-date parsing itself is not modelled since no claim concerns
date formats. -/
structure Date where
  year : Int
  month : Nat
  day : Nat
deriving DecidableEq, Repr

/-- One retained row of the dataset, with the eleven columns selected by
`load_data` (App.py lines 17-19).  `last_review_year` models the derived
column that line 200 of App.py adds to `df_filtered` in place; rows
produced by the loader carry `none` there.  `last_review` is optional at
the type level (a pandas datetime column may hold NaT), although the
loader's `dropna` in fact removes such rows. -/
structure Listing where
  id : Int
  name : String
  neighbourhood : String
  room_type : String
  price : ℚ
  latitude : ℚ
  longitude : ℚ
  number_of_reviews : Int
  availability_365 : Int
  last_review : Option Date
  reviews_per_month : ℚ
  last_review_year : Option Int := none
deriving DecidableEq, Repr

/-- The sidebar filter state: the five widget values read at
App.py lines 67-112 (`neighborhoods`, `room_types`, `price_range`,
`availability`, `reviews_per_month_range`). -/
structure FilterCriteria where
  neighbourhoods : List String
  room_types : List String
  price_range : ℚ × ℚ
  availability : Int × Int
  reviews_per_month_range : ℚ × ℚ
deriving DecidableEq, Repr

/-- The row predicate of the boolean mask at App.py lines 115-121:
`isin(neighborhoods) & price.between(...) & isin(room_types) &
availability_365.between(...) & reviews_per_month.between(...)`.
`between` is inclusive on both ends. -/
def listingPred (c : FilterCriteria) (r : Listing) : Bool :=
  c.neighbourhoods.contains r.neighbourhood &&
  (decide (c.price_range.1 ≤ r.price) && decide (r.price ≤ c.price_range.2)) &&
  c.room_types.contains r.room_type &&
  (decide (c.availability.1 ≤ r.availability_365) &&
    decide (r.availability_365 ≤ c.availability.2)) &&
  (decide (c.reviews_per_month_range.1 ≤ r.reviews_per_month) &&
    decide (r.reviews_per_month ≤ c.reviews_per_month_range.2))

/-- The Filter Engine, `df_filtered = df[mask]` (App.py lines 115-121):
keep, in original order, exactly the rows satisfying the conjunction of
the five predicates. -/
def apply (df : List Listing) (c : FilterCriteria) : List Listing :=
  df.filter (listingPred c)

end Dashboard

namespace Dashboard

/-- C1: a row is in the FilteredView iff it is a row of the dataset whose
neighbourhood is selected, whose price, availability_365 and
reviews_per_month lie in the respective closed intervals, and whose
room_type is selected; and an empty selected categorical set yields an
empty FilteredView. -/
theorem C1_apply_membership (df : List Listing) (c : FilterCriteria) (r : Listing) :
    (r ∈ apply df c ↔ r ∈ df ∧
      (r.neighbourhood ∈ c.neighbourhoods ∧
       (c.price_range.1 ≤ r.price ∧ r.price ≤ c.price_range.2) ∧
       r.room_type ∈ c.room_types ∧
       (c.availability.1 ≤ r.availability_365 ∧ r.availability_365 ≤ c.availability.2) ∧
       (c.reviews_per_month_range.1 ≤ r.reviews_per_month ∧
        r.reviews_per_month ≤ c.reviews_per_month_range.2)))
    ∧ ((c.neighbourhoods = [] ∨ c.room_types = []) → apply df c = []) := by
  constructor
  · simp only [apply, List.mem_filter, listingPred, Bool.and_eq_true, decide_eq_true_eq,
      List.contains, List.elem_iff]
    tauto
  · intro h
    apply List.filter_eq_nil_iff.mpr
    intro a _
    simp only [listingPred, Bool.and_eq_true, List.contains, List.elem_iff, decide_eq_true_eq]
    rcases h with h | h <;> simp [h]

/-- Sample listing used to instantiate hypotheses of the theorems. -/
def sampleListing : Listing :=
  { id := 1, name := "Cozy loft", neighbourhood := "Downtown", room_type := "Entire home/apt",
    price := 80, latitude := 49, longitude := -123, number_of_reviews := 12,
    availability_365 := 200, last_review := some ⟨2024, 5, 1⟩, reviews_per_month := 2 }

/-- Criteria whose neighbourhood selection is empty. -/
def emptyNeighbourhoodCriteria : FilterCriteria :=
  { neighbourhoods := [], room_types := ["Entire home/apt"],
    price_range := (0, 1000), availability := (0, 365),
    reviews_per_month_range := (0, 10) }

/-- Witness for C1 at a concrete dataset and criteria with an empty
neighbourhood selection. -/
theorem C1_apply_membership_witness :
    apply [sampleListing] emptyNeighbourhoodCriteria = [] :=
  (C1_apply_membership [sampleListing] emptyNeighbourhoodCriteria sampleListing).2
    (Or.inl rfl)

/-- C2: `apply` is a pure deterministic function (same inputs give the
same sequence), its output is a subsequence of the dataset (original row
order preserved, no reordering or duplication), and re-applying the same
criteria to its own output changes nothing. -/
theorem C2_apply_pure_order_preserving (df : List Listing) (c : FilterCriteria) :
    apply df c = apply df c ∧
    (apply df c).Sublist df ∧
    apply (apply df c) c = apply df c := by
  refine ⟨rfl, List.filter_sublist df, ?_⟩
  simp [apply, List.filter_filter]

/-- `Series.unique()` (App.py lines 70, 79): the distinct values of a
column, first occurrence first. -/
def pdUniqueAux (seen : List String) : List String → List String
  | [] => []
  | x :: xs => if seen.contains x then pdUniqueAux seen xs else x :: pdUniqueAux (x :: seen) xs

/-- `Series.unique()` with no values seen yet. -/
def pdUnique (l : List String) : List String := pdUniqueAux [] l

/-- `Series.min()`: `none` on an empty column (pandas NaN). -/
def colMin : List ℚ → Option ℚ
  | [] => none
  | x :: xs => some (xs.foldl min x)

/-- `Series.max()`: `none` on an empty column (pandas NaN). -/
def colMax : List ℚ → Option ℚ
  | [] => none
  | x :: xs => some (xs.foldl max x)

/-- The initial widget values of the sidebar (App.py lines 67-112): both
multiselects default to every observed category; the price slider's
default value is the pair `(50, 300)` (line 90), the availability
slider's is `(0, 365)` (line 100), and the reviews-per-month slider's is
`(0.0, float(df['reviews_per_month'].max()))` (line 110). -/
def defaultCriteria (df : List Listing) : FilterCriteria :=
  { neighbourhoods := pdUnique (df.map (·.neighbourhood)),
    room_types := pdUnique (df.map (·.room_type)),
    price_range := (50, 300),
    availability := (0, 365),
    reviews_per_month_range := (0, (colMax (df.map (·.reviews_per_month))).getD 0) }

theorem mem_pdUniqueAux {a : String} :
    ∀ {l seen : List String}, a ∈ pdUniqueAux seen l ↔ a ∈ l ∧ a ∉ seen := by
  intro l
  induction l with
  | nil => intro seen; simp [pdUniqueAux]
  | cons x xs ih =>
    intro seen
    by_cases hmem : x ∈ seen
    · rw [show pdUniqueAux seen (x :: xs) = pdUniqueAux seen xs from by
        simp [pdUniqueAux, hmem], ih]
      simp only [List.mem_cons]
      constructor
      · rintro ⟨h1, h2⟩; exact ⟨Or.inr h1, h2⟩
      · rintro ⟨h1 | h1, h2⟩
        · exact absurd (h1.symm ▸ hmem) h2
        · exact ⟨h1, h2⟩
    · rw [show pdUniqueAux seen (x :: xs) = x :: pdUniqueAux (x :: seen) xs from by
        simp [pdUniqueAux, hmem]]
      simp only [List.mem_cons, ih]
      constructor
      · rintro (h1 | ⟨h2, h3⟩)
        · exact ⟨Or.inl h1, fun hc => hmem (h1 ▸ hc)⟩
        · exact ⟨Or.inr h2, fun hc => h3 (Or.inr hc)⟩
      · rintro ⟨h1 | h1, h2⟩
        · exact Or.inl h1
        · by_cases hax : a = x
          · exact Or.inl hax
          · exact Or.inr ⟨h1, fun hc => hc.elim hax h2⟩

theorem mem_pdUnique {a : String} {l : List String} : a ∈ pdUnique l ↔ a ∈ l := by
  simp [pdUnique, mem_pdUniqueAux]

theorem nodup_pdUniqueAux : ∀ (l seen : List String), (pdUniqueAux seen l).Nodup := by
  intro l
  induction l with
  | nil => intro seen; simp [pdUniqueAux]
  | cons x xs ih =>
    intro seen
    by_cases hmem : x ∈ seen
    · rw [show pdUniqueAux seen (x :: xs) = pdUniqueAux seen xs from by
        simp [pdUniqueAux, hmem]]
      exact ih seen
    · rw [show pdUniqueAux seen (x :: xs) = x :: pdUniqueAux (x :: seen) xs from by
        simp [pdUniqueAux, hmem]]
      refine List.nodup_cons.mpr ⟨fun hc => ?_, ih (x :: seen)⟩
      exact (mem_pdUniqueAux.mp hc).2 (List.mem_cons_self x seen)

theorem nodup_pdUnique (l : List String) : (pdUnique l).Nodup :=
  nodup_pdUniqueAux l []

/-- A second listing, distinct from `sampleListing`, used in concrete
datasets. -/
def sampleListing2 : Listing :=
  { id := 2, name := "Garden suite", neighbourhood := "Kitsilano", room_type := "Private room",
    price := 1000, latitude := 49, longitude := -123, number_of_reviews := 3,
    availability_365 := 100, last_review := some ⟨2023, 11, 20⟩, reviews_per_month := 1 }

/-- A concrete dataset whose observed price range is [10, 1000]. -/
def dsPrices : List Listing :=
  [{ sampleListing with price := 10 }, sampleListing2]

/-- C3 fails: on a dataset with observed prices {10, 1000}, the default
price interval is the hard-coded `(50, 300)` of App.py line 90, not the
observed `[min, max]`. -/
theorem C3_defaults_counterexample :
    colMin (dsPrices.map (·.price)) = some 10 ∧
    colMax (dsPrices.map (·.price)) = some 1000 ∧
    (defaultCriteria dsPrices).price_range = (50, 300) ∧
    (defaultCriteria dsPrices).price_range ≠ (10, 1000) := by
  refine ⟨by decide, by decide, rfl, by decide⟩

/-- C3 amended: the categorical filters do default to all observed
categories, but the interval defaults are `(50, 300)` for price,
`(0, 365)` for availability, and `(0, observed max)` for
reviews_per_month — not the observed `[min, max]` of each column. -/
theorem C3_default_criteria (df : List Listing) (l : Listing) (h : l ∈ df) :
    l.neighbourhood ∈ (defaultCriteria df).neighbourhoods ∧
    l.room_type ∈ (defaultCriteria df).room_types ∧
    (defaultCriteria df).price_range = (50, 300) ∧
    (defaultCriteria df).availability = (0, 365) ∧
    (defaultCriteria df).reviews_per_month_range =
      (0, (colMax (df.map (·.reviews_per_month))).getD 0) := by
  refine ⟨?_, ?_, rfl, rfl, rfl⟩
  · exact mem_pdUnique.mpr (List.mem_map_of_mem _ h)
  · exact mem_pdUnique.mpr (List.mem_map_of_mem _ h)

/-- Ascending price comparison used by `nsmallest(n, 'price')`. -/
def priceLE (a b : Listing) : Bool := decide (a.price ≤ b.price)

/-- The stable ascending ordering by price that `nsmallest` draws from:
pandas keeps the first occurrences among duplicate values
(`keep='first'`), i.e. it reads off a stable sort by price. -/
def sortByPriceAsc (view : List Listing) : List Listing := view.mergeSort priceLE

/-- `df_filtered.nsmallest(n, 'price')` (App.py line 196): the first `n`
rows of the stable ascending-by-price ordering of the view. -/
def cheapest (view : List Listing) (n : Nat) : List Listing :=
  (sortByPriceAsc view).take n

theorem priceLE_trans (a b c : Listing) :
    priceLE a b = true → priceLE b c = true → priceLE a c = true := by
  simp only [priceLE, decide_eq_true_eq]
  exact le_trans

theorem priceLE_total (a b : Listing) : (priceLE a b || priceLE b a) = true := by
  simp only [priceLE, Bool.or_eq_true, decide_eq_true_eq]
  exact le_total a.price b.price

/-- C4: `cheapest view n` has length `min n |view|`, is a prefix of the
stable ascending-by-price ordering of the view, is itself sorted
ascending by price, equal-price rows stay in original row order (the
equal-price rows of the sorted sequence are exactly the equal-price rows
of the view, in the view's order), the sorted sequence is a permutation
of the view, and for `n ≥ |view|` the whole sorted view is returned. -/
theorem C4_cheapest (view : List Listing) (n : Nat) :
    (cheapest view n).length = min n view.length ∧
    (cheapest view n).IsPrefix (sortByPriceAsc view) ∧
    (cheapest view n).Pairwise (fun a b => a.price ≤ b.price) ∧
    (∀ p : ℚ, (sortByPriceAsc view).filter (fun l => decide (l.price = p)) =
      view.filter (fun l => decide (l.price = p))) ∧
    (sortByPriceAsc view).Perm view ∧
    (view.length ≤ n → cheapest view n = sortByPriceAsc view) := by
  have hperm : (sortByPriceAsc view).Perm view := List.mergeSort_perm view priceLE
  have hlen : (sortByPriceAsc view).length = view.length := hperm.length_eq
  have hsorted : (sortByPriceAsc view).Pairwise (fun a b => priceLE a b = true) :=
    List.sorted_mergeSort priceLE_trans priceLE_total view
  refine ⟨?_, List.take_prefix n _, ?_, ?_, hperm, ?_⟩
  · rw [cheapest, List.length_take, hlen]
  · have h1 : (cheapest view n).Pairwise (fun a b => priceLE a b = true) :=
      hsorted.sublist (List.take_sublist n _)
    exact h1.imp (fun h => by simpa [priceLE] using h)
  · intro p
    set q : Listing → Bool := fun l => decide (l.price = p) with hq
    have hqmem : ∀ a ∈ view.filter q, a.price = p := by
      intro a ha
      have := (List.mem_filter.mp ha).2
      simpa [hq] using this
    have hpw : (view.filter q).Pairwise (fun a b => priceLE a b = true) := by
      apply List.pairwise_of_forall_mem_list
      intro a ha b hb
      simp only [priceLE, decide_eq_true_eq, hqmem a ha, hqmem b hb, le_refl]
    have hsub : (view.filter q).Sublist (sortByPriceAsc view) :=
      List.sublist_mergeSort priceLE_trans priceLE_total hpw (List.filter_sublist view)
    have hsub2 : ((view.filter q).filter q).Sublist ((sortByPriceAsc view).filter q) :=
      hsub.filter q
    rw [List.filter_filter] at hsub2
    simp only [Bool.and_self] at hsub2
    have hlenq : ((sortByPriceAsc view).filter q).length = (view.filter q).length :=
      (hperm.filter q).length_eq
    exact (hsub2.eq_of_length hlenq.symm).symm
  · intro hn
    rw [cheapest, List.take_of_length_le (by rw [hlen]; exact hn)]

/-- A stable sort leaves the rows selected by `q` exactly as they were,
provided those rows are pairwise ordered already (e.g. all tied): the
key stability fact behind pandas tie-breaking. -/
theorem stable_filter_mergeSort {α : Type} (le : α → α → Bool)
    (htrans : ∀ a b c : α, le a b = true → le b c = true → le a c = true)
    (htotal : ∀ a b : α, (le a b || le b a) = true)
    (l : List α) (q : α → Bool)
    (hpw : (l.filter q).Pairwise (fun a b => le a b = true)) :
    (l.mergeSort le).filter q = l.filter q := by
  have hsub : (l.filter q).Sublist (l.mergeSort le) :=
    List.sublist_mergeSort htrans htotal hpw (List.filter_sublist l)
  have hsub2 := hsub.filter q
  rw [List.filter_filter] at hsub2
  simp only [Bool.and_self] at hsub2
  have hlenq : ((l.mergeSort le).filter q).length = (l.filter q).length :=
    ((List.mergeSort_perm l le).filter q).length_eq
  exact (hsub2.eq_of_length hlenq.symm).symm

/-- Ascending comparison of group keys: pandas `groupby` emits its
groups with keys in ascending order (`sort=True` default). -/
def strLE (a b : String) : Bool := decide (a ≤ b)

theorem strLE_trans (a b c : String) :
    strLE a b = true → strLE b c = true → strLE a c = true := by
  simp only [strLE, decide_eq_true_eq]
  exact le_trans

theorem strLE_total (a b : String) : (strLE a b || strLE b a) = true := by
  simp only [strLE, Bool.or_eq_true, decide_eq_true_eq]
  exact le_total a b

/-- The ascending sequence of distinct values of a key column: the group
keys of `groupby` in the order pandas emits them. -/
def groupKeys (col : List String) : List String := (pdUnique col).mergeSort strLE

theorem nodup_groupKeys (col : List String) : (groupKeys col).Nodup :=
  (List.mergeSort_perm (pdUnique col) strLE).symm.nodup (nodup_pdUnique col)

theorem mem_groupKeys {k : String} {col : List String} : k ∈ groupKeys col ↔ k ∈ col :=
  Iff.trans ((List.mergeSort_perm (pdUnique col) strLE).mem_iff) mem_pdUnique

theorem sorted_groupKeys (col : List String) :
    (groupKeys col).Pairwise (fun a b => a ≤ b) :=
  (List.sorted_mergeSort strLE_trans strLE_total (pdUnique col)).imp
    (fun h => by simpa [strLE] using h)

/-- Arithmetic mean of a (non-empty) numeric column, `Series.mean()`. -/
def meanQ (xs : List ℚ) : ℚ := xs.sum / (xs.length : ℚ)

/-- Ascending comparison by aggregated value, as used by
`.sort_values()` on the room-type means. -/
def sndLE (a b : String × ℚ) : Bool := decide (a.2 ≤ b.2)

theorem sndLE_trans (a b c : String × ℚ) :
    sndLE a b = true → sndLE b c = true → sndLE a c = true := by
  simp only [sndLE, decide_eq_true_eq]
  exact le_trans

theorem sndLE_total (a b : String × ℚ) : (sndLE a b || sndLE b a) = true := by
  simp only [sndLE, Bool.or_eq_true, decide_eq_true_eq]
  exact le_total a.2 b.2

/-- `df_filtered.groupby('room_type')['price'].mean()` (App.py line
180): one `(room_type, mean price)` pair per distinct room type of the
view, keys ascending. -/
def roomTypePairs (view : List Listing) : List (String × ℚ) :=
  (groupKeys (view.map (fun l => l.room_type))).map
    (fun k => (k, meanQ ((view.filter (fun l => decide (l.room_type = k))).map
      (fun l => l.price))))

/-- `... .sort_values()` (App.py line 180): the per-room-type mean
prices re-sorted ascending by the mean, ties kept in prior (key) order. -/
def mean_price_by_room_type (view : List Listing) : List (String × ℚ) :=
  (roomTypePairs view).mergeSort sndLE

/-- C5: on a non-empty view, `mean_price_by_room_type` is sorted
ascending by mean price, contains each room type of the view exactly
once, each pair carries the mean price of its group, and tied means keep
the ascending room-type (category) order, so the result is a
deterministic function of the view. -/
theorem C5_mean_price_by_room_type (view : List Listing) (_hv : view ≠ []) :
    (mean_price_by_room_type view).Pairwise (fun a b => a.2 ≤ b.2) ∧
    ((mean_price_by_room_type view).map Prod.fst).Nodup ∧
    (∀ k, k ∈ (mean_price_by_room_type view).map Prod.fst ↔
      ∃ l ∈ view, l.room_type = k) ∧
    (∀ pr ∈ mean_price_by_room_type view,
      pr.2 = meanQ ((view.filter (fun l => decide (l.room_type = pr.1))).map
        (fun l => l.price))) ∧
    (∀ m : ℚ, ((mean_price_by_room_type view).filter (fun pr => decide (pr.2 = m))).Pairwise
      (fun a b => a.1 ≤ b.1)) := by
  have hperm : (mean_price_by_room_type view).Perm (roomTypePairs view) :=
    List.mergeSort_perm (roomTypePairs view) sndLE
  have hfst : (roomTypePairs view).map Prod.fst =
      groupKeys (view.map (fun l => l.room_type)) := by
    simp [roomTypePairs, List.map_map, Function.comp_def]
  have hpairspw : (roomTypePairs view).Pairwise (fun a b => a.1 ≤ b.1) := by
    rw [roomTypePairs, List.pairwise_map]
    exact sorted_groupKeys _
  refine ⟨?_, ?_, ?_, ?_, ?_⟩
  · exact (List.sorted_mergeSort sndLE_trans sndLE_total (roomTypePairs view)).imp
      (fun h => by simpa [sndLE] using h)
  · have h1 : ((mean_price_by_room_type view).map Prod.fst).Perm
        ((roomTypePairs view).map Prod.fst) := hperm.map Prod.fst
    refine h1.symm.nodup ?_
    rw [hfst]
    exact nodup_groupKeys _
  · intro k
    rw [(hperm.map Prod.fst).mem_iff, hfst, mem_groupKeys]
    simp only [List.mem_map]
  · intro pr hpr
    have hmem : pr ∈ roomTypePairs view := hperm.mem_iff.mp hpr
    rw [roomTypePairs] at hmem
    rcases List.mem_map.mp hmem with ⟨k, _, he⟩
    rw [← he]
  · intro m
    set q : String × ℚ → Bool := fun pr => decide (pr.2 = m) with hq
    have hpw : ((roomTypePairs view).filter q).Pairwise (fun a b => sndLE a b = true) := by
      apply List.pairwise_of_forall_mem_list
      intro a ha b hb
      have ha2 : a.2 = m := by simpa [hq] using (List.mem_filter.mp ha).2
      have hb2 : b.2 = m := by simpa [hq] using (List.mem_filter.mp hb).2
      simp [sndLE, ha2, hb2]
    rw [mean_price_by_room_type,
      stable_filter_mergeSort sndLE sndLE_trans sndLE_total (roomTypePairs view) q hpw]
    exact hpairspw.sublist (List.filter_sublist _)

/-- Witness for C5 at a concrete non-empty two-row view. -/
theorem C5_mean_price_by_room_type_witness :
    dsPrices ≠ [] ∧
    (mean_price_by_room_type dsPrices).Pairwise (fun a b => a.2 ≤ b.2) ∧
    ((mean_price_by_room_type dsPrices).map Prod.fst).Nodup :=
  ⟨by decide, (C5_mean_price_by_room_type dsPrices (by decide)).1,
    (C5_mean_price_by_room_type dsPrices (by decide)).2.1⟩

/-- One row of the `neighborhood_stats` table built at App.py lines
233-238: the four aggregates computed by `.agg` for one neighbourhood
group. -/
structure NeighborhoodSummary where
  neighbourhood : String
  average_price : ℚ
  num_listings : Nat
  avg_availability : ℚ
  avg_reviews_per_month : ℚ
deriving DecidableEq, Repr

/-- The rows of one neighbourhood group of
`df_filtered.groupby('neighbourhood')` (App.py line 233). -/
def neighborhoodRows (view : List Listing) (k : String) : List Listing :=
  view.filter (fun l => decide (l.neighbourhood = k))

/-- `groupby('neighbourhood').agg(...)` (App.py lines 233-237): one
summary per distinct neighbourhood, keys ascending; `num_listings` is
`('id', 'count')`, the size of the group. -/
def neighborhoodAgg (view : List Listing) : List NeighborhoodSummary :=
  (groupKeys (view.map (fun l => l.neighbourhood))).map (fun k =>
    { neighbourhood := k,
      average_price := meanQ ((neighborhoodRows view k).map (fun l => l.price)),
      num_listings := (neighborhoodRows view k).length,
      avg_availability :=
        meanQ ((neighborhoodRows view k).map (fun l => (l.availability_365 : ℚ))),
      avg_reviews_per_month :=
        meanQ ((neighborhoodRows view k).map (fun l => l.reviews_per_month)) })

/-- `neighborhood_stats` (App.py lines 233-238): the per-neighbourhood
aggregates after `.sort_values('average_price', ascending=False)`.
pandas' default sort kind is quicksort, which is documented as not
stable (and numpy's introsort is unstable above its 16-element
insertion-sort cutoff, reachable with Vancouver's ~22 neighbourhoods),
so the library guarantees only that the rows come back reordered
descending by `average_price`; the relative order of rows with equal
means is unspecified.  The sort stage is therefore embedded as the
relation between the groupby output and any result the library may
return: `out` is a possible `neighborhood_stats` table for `view` iff it
is a permutation of the groups that is descending in `average_price`. -/
def isNeighborhoodSummaryOf (view : List Listing) (out : List NeighborhoodSummary) : Prop :=
  out.Perm (neighborhoodAgg view) ∧
  out.Pairwise (fun a b => b.average_price ≤ a.average_price)

/-- The groups of a partition of `v` by key cover it: the group sizes of
the distinct keys sum to the length of `v`. -/
theorem sum_group_lengths {α : Type} (f : α → String) :
    ∀ (keys : List String) (v : List α), keys.Nodup → (∀ x ∈ v, f x ∈ keys) →
      (keys.map (fun k => (v.filter (fun x => decide (f x = k))).length)).sum = v.length := by
  intro keys
  induction keys with
  | nil =>
    intro v _ hcov
    cases v with
    | nil => simp
    | cons x xs => exact absurd (hcov x (List.mem_cons_self x xs)) (List.not_mem_nil (f x))
  | cons k ks ih =>
    intro v hnd hcov
    have hnd2 := List.nodup_cons.mp hnd
    set v2 := v.filter (fun x => ! decide (f x = k)) with hv2
    have hcov2 : ∀ x ∈ v2, f x ∈ ks := by
      intro x hx
      have hx1 := List.mem_filter.mp hx
      have hne : f x ≠ k := by simpa using hx1.2
      rcases List.mem_cons.mp (hcov x hx1.1) with h | h
      · exact absurd h hne
      · exact h
    have hrest : (ks.map (fun q => (v.filter (fun x => decide (f x = q))).length)).sum =
        (ks.map (fun q => (v2.filter (fun x => decide (f x = q))).length)).sum := by
      apply congrArg List.sum
      apply List.map_congr_left
      intro q hq
      have hqk : q ≠ k := fun h => hnd2.1 (h ▸ hq)
      apply congrArg List.length
      rw [hv2, List.filter_filter]
      apply List.filter_congr
      intro x _
      by_cases hfx : f x = q
      · simp [hfx, hqk]
      · simp [hfx]
    rw [List.map_cons, List.sum_cons, hrest, ih v2 hnd2.2 hcov2]
    exact (List.length_eq_length_filter_add (fun x => decide (f x = k))).symm

/-- A listing in the Arbutus neighbourhood. -/
def listingArbutus : Listing := { sampleListing with neighbourhood := "Arbutus" }

/-- A listing in the Dunbar neighbourhood with the same price. -/
def listingDunbar : Listing :=
  { sampleListing with id := 4, neighbourhood := "Dunbar" }

/-- A concrete view with two neighbourhoods whose mean prices tie. -/
def dsTied : List Listing := [listingArbutus, listingDunbar]

/-- The Arbutus group's aggregates in `dsTied`. -/
def summaryArbutus : NeighborhoodSummary :=
  { neighbourhood := "Arbutus", average_price := 80, num_listings := 1,
    avg_availability := 200, avg_reviews_per_month := 2 }

/-- The Dunbar group's aggregates in `dsTied`: an exact tie in
`average_price` with the Arbutus group. -/
def summaryDunbar : NeighborhoodSummary :=
  { neighbourhood := "Dunbar", average_price := 80, num_listings := 1,
    avg_availability := 200, avg_reviews_per_month := 2 }

theorem arbutus_lt_dunbar : ("Arbutus" : String) < "Dunbar" := by
  rw [String.lt_iff_toList_lt]
  decide

theorem neighborhoodAgg_dsTied :
    neighborhoodAgg dsTied = [summaryArbutus, summaryDunbar] := by
  have hkeys : groupKeys (dsTied.map (fun l => l.neighbourhood)) = ["Arbutus", "Dunbar"] := by
    rw [groupKeys,
      show pdUnique (dsTied.map (fun l => l.neighbourhood)) = ["Arbutus", "Dunbar"] from by
        decide]
    apply List.mergeSort_of_sorted
    refine List.Pairwise.cons ?_ (List.pairwise_singleton _ _)
    intro b hb
    rw [List.mem_singleton] at hb
    subst hb
    simp only [strLE, decide_eq_true_eq]
    exact le_of_lt arbutus_lt_dunbar
  rw [neighborhoodAgg, hkeys]
  have hA : neighborhoodRows dsTied "Arbutus" = [listingArbutus] := by decide
  have hD : neighborhoodRows dsTied "Dunbar" = [listingDunbar] := by decide
  simp only [List.map_cons, List.map_nil, hA, hD]
  norm_num [meanQ, summaryArbutus, summaryDunbar, listingArbutus, listingDunbar,
    sampleListing]

/-- C6 fails on its tie-break conjunct: `sort_values` with the default
(unstable) quicksort specifies the result only up to the order of tied
rows, so on a view whose two neighbourhood groups tie in mean price, the
output with the names in descending order is a possible
`neighborhood_stats` table, and it is not tie-broken by neighbourhood
name ascending. -/
theorem C6_tie_order_counterexample :
    isNeighborhoodSummaryOf dsTied [summaryDunbar, summaryArbutus] ∧
    ¬ ([summaryDunbar, summaryArbutus].Pairwise
        (fun a b => a.neighbourhood ≤ b.neighbourhood)) := by
  refine ⟨⟨?_, ?_⟩, ?_⟩
  · rw [neighborhoodAgg_dsTied]
    exact List.Perm.swap _ _ _
  · refine List.Pairwise.cons ?_ (List.pairwise_singleton _ _)
    intro b hb
    rw [List.mem_singleton] at hb
    subst hb
    decide
  · intro hpw
    have h := (List.pairwise_cons.mp hpw).1 summaryArbutus (List.mem_singleton.mpr rfl)
    exact absurd h (not_le.mpr arbutus_lt_dunbar)

/-- C6 amended: every table `sort_values` may return for the
neighbourhood aggregates has exactly one entry per distinct
neighbourhood of the view, each entry carries the group's mean price,
size, mean availability and mean reviews_per_month, the entries are
sorted descending by mean price, and the entry counts sum to the size of
the view; the order among entries with equal mean price is not
specified, so no neighbourhood-name tie-break is guaranteed. -/
theorem C6_neighborhood_summary_spec (view : List Listing)
    (out : List NeighborhoodSummary) (h : isNeighborhoodSummaryOf view out) :
    (out.map (fun s => s.neighbourhood)).Nodup ∧
    (∀ k, k ∈ out.map (fun s => s.neighbourhood) ↔
      ∃ l ∈ view, l.neighbourhood = k) ∧
    (∀ s ∈ out,
      s.average_price = meanQ ((neighborhoodRows view s.neighbourhood).map (fun l => l.price)) ∧
      s.num_listings = (neighborhoodRows view s.neighbourhood).length ∧
      s.avg_availability =
        meanQ ((neighborhoodRows view s.neighbourhood).map (fun l => (l.availability_365 : ℚ))) ∧
      s.avg_reviews_per_month =
        meanQ ((neighborhoodRows view s.neighbourhood).map (fun l => l.reviews_per_month))) ∧
    out.Pairwise (fun a b => b.average_price ≤ a.average_price) ∧
    (out.map (fun s => s.num_listings)).sum = view.length := by
  obtain ⟨hperm, hsorted⟩ := h
  have hfst : (neighborhoodAgg view).map (fun s => s.neighbourhood) =
      groupKeys (view.map (fun l => l.neighbourhood)) := by
    simp [neighborhoodAgg, List.map_map, Function.comp_def]
  refine ⟨?_, ?_, ?_, hsorted, ?_⟩
  · refine ((hperm.map (fun s => s.neighbourhood)).symm.nodup ?_)
    rw [hfst]
    exact nodup_groupKeys _
  · intro k
    rw [(hperm.map (fun s => s.neighbourhood)).mem_iff, hfst, mem_groupKeys]
    simp only [List.mem_map]
  · intro s hs
    have hmem : s ∈ neighborhoodAgg view := hperm.mem_iff.mp hs
    rw [neighborhoodAgg] at hmem
    rcases List.mem_map.mp hmem with ⟨k, _, he⟩
    rw [← he]
    exact ⟨rfl, rfl, rfl, rfl⟩
  · have h1 : (out.map (fun s => s.num_listings)).Perm
        ((neighborhoodAgg view).map (fun s => s.num_listings)) :=
      hperm.map (fun s => s.num_listings)
    rw [h1.sum_eq]
    have h2 : (neighborhoodAgg view).map (fun s => s.num_listings) =
        (groupKeys (view.map (fun l => l.neighbourhood))).map
          (fun k => (view.filter (fun x => decide (x.neighbourhood = k))).length) := by
      simp [neighborhoodAgg, List.map_map, Function.comp_def, neighborhoodRows]
    rw [h2]
    exact sum_group_lengths (fun l : Listing => l.neighbourhood) _ view (nodup_groupKeys _)
      (fun x hx => mem_groupKeys.mpr (List.mem_map_of_mem _ hx))

/-- `df_filtered['last_review'].dt.year` for one row (App.py line 200):
`none` when the date is missing. -/
def last_review_year (l : Listing) : Option Int :=
  l.last_review.map (fun d => d.year)

/-- `sns.countplot(data=df_filtered, x='last_review_year')` (App.py
line 202): the number of rows whose last_review falls in calendar year
`y`; rows with a missing value in the plotted column are dropped by the
plot. -/
def last_review_year_histogram (view : List Listing) (y : Int) : Nat :=
  (view.filterMap last_review_year).count y

theorem count_filterMap_eq_countP {α β : Type} [BEq β] (f : α → Option β)
    (l : List α) (y : β) :
    (l.filterMap f).count y = l.countP (fun a => f a == some y) := by
  induction l with
  | nil => simp
  | cons a l ih =>
    cases hfa : f a with
    | none => simp [List.filterMap_cons, hfa, ih, List.countP_cons]
    | some b => simp [List.filterMap_cons, hfa, ih, List.countP_cons, List.count_cons]

/-- A FilterCriteria selecting the categories of the sample listings
and wide intervals. -/
def allCriteria : FilterCriteria :=
  { neighbourhoods := ["Downtown", "Kitsilano"],
    room_types := ["Entire home/apt", "Private room"],
    price_range := (0, 2000), availability := (0, 365),
    reviews_per_month_range := (0, 10) }

/-- A listing that has never been reviewed: its `last_review` is
missing. -/
def noReviewListing : Listing :=
  { id := 3, name := "Brand new suite", neighbourhood := "Downtown",
    room_type := "Entire home/apt", price := 150, latitude := 49, longitude := -123,
    number_of_reviews := 0, availability_365 := 300, last_review := none,
    reviews_per_month := 0 }

/-- C7: the last-review-year histogram groups rows by the calendar-year
component of `last_review` and counts them; rows with no `last_review`
are excluded from this aggregate only (dropping them from the view first
changes nothing), and a FilteredView can indeed contain a listing with
no `last_review`, since `apply` never filters on that column. -/
theorem C7_last_review_year_histogram (view : List Listing) (y : Int) :
    last_review_year_histogram view y =
      last_review_year_histogram (view.filter (fun l => (last_review_year l).isSome)) y ∧
    last_review_year_histogram view y =
      (view.filter (fun l => last_review_year l == some y)).length ∧
    (∃ ds c, ∃ l ∈ apply ds c, l.last_review = none) := by
  refine ⟨?_, ?_, ⟨[noReviewListing], allCriteria, noReviewListing, by decide, rfl⟩⟩
  · rw [last_review_year_histogram, last_review_year_histogram,
      count_filterMap_eq_countP, count_filterMap_eq_countP, List.countP_filter]
    apply List.countP_congr
    intro l _
    cases hl : last_review_year l <;> simp [hl]
  · rw [last_review_year_histogram, count_filterMap_eq_countP,
      List.countP_eq_length_filter]

/-- App.py line 200, `df_filtered['last_review_year'] =
df_filtered['last_review'].dt.year`: the in-place column assignment
performed on the FilteredView while the review-activity chart is
rendered. -/
def assignLastReviewYear (view : List Listing) : List Listing :=
  view.map (fun l => { l with last_review_year := last_review_year l })

/-- Forget the derived `last_review_year` column of a row. -/
def stripDerived (l : Listing) : Listing := { l with last_review_year := none }

/-- C9 fails: the FilteredView is mutated in place by the aggregate
stage.  On a concrete one-row view, the view after App.py line 200 is
not the sequence `apply` returned: the row gained a `last_review_year`
field. -/
theorem C9_view_mutated_counterexample :
    assignLastReviewYear (apply [sampleListing] allCriteria) ≠
      apply [sampleListing] allCriteria := by
  decide

/-- C9 amended: the only in-place change the downstream computations
make to the FilteredView is adding the derived `last_review_year`
column (App.py line 200); the row sequence, its length and every
original field are exactly those of the sequence `apply` returned. -/
theorem C9_only_derived_column_added (df : List Listing) (c : FilterCriteria) :
    (assignLastReviewYear (apply df c)).map stripDerived =
      (apply df c).map stripDerived ∧
    (assignLastReviewYear (apply df c)).length = (apply df c).length := by
  constructor
  · rw [assignLastReviewYear, List.map_map]
    apply List.map_congr_left
    intro l _
    rfl
  · rw [assignLastReviewYear, List.length_map]

/-- `Series.mean()` over a possibly-empty column: pandas yields NaN on
an empty column, modelled as `none`. -/
def pdMean (xs : List ℚ) : Option ℚ :=
  if xs.isEmpty then none else some (meanQ xs)

/-- `df_filtered['price'].mean()` (App.py line 190). -/
def mean_price (view : List Listing) : Option ℚ :=
  pdMean (view.map (fun l => l.price))

/-- `df_filtered['reviews_per_month'].mean()` (App.py line 192). -/
def mean_reviews_per_month (view : List Listing) : Option ℚ :=
  pdMean (view.map (fun l => l.reviews_per_month))

/-- C10: on an empty FilteredView both scalar means evaluate to the NaN
sentinel (`none`); the computation is total, so no error is raised. -/
theorem C10_empty_view_means (view : List Listing) (h : view = []) :
    mean_price view = none ∧ mean_reviews_per_month view = none := by
  subst h
  exact ⟨rfl, rfl⟩

/-- Witness for C10 at the concrete empty view. -/
theorem C10_empty_view_means_witness :
    ([] : List Listing) = [] ∧
    mean_price ([] : List Listing) = none ∧
    mean_reviews_per_month ([] : List Listing) = none :=
  ⟨rfl, (C10_empty_view_means [] rfl).1, (C10_empty_view_means [] rfl).2⟩

/-- One raw row of `listings.csv`, restricted to the eleven columns the
app selects: any cell may be missing, and price is still the raw
currency-formatted string.  (String-to-date parsing of `last_review` is
abstracted: the raw cell already carries the date components, since no
claim concerns date formats.) -/
structure RawRow where
  id : Option Int
  name : Option String
  neighbourhood : Option String
  room_type : Option String
  price : Option String
  latitude : Option ℚ
  longitude : Option ℚ
  number_of_reviews : Option Int
  availability_365 : Option Int
  last_review : Option Date
  reviews_per_month : Option ℚ
deriving DecidableEq, Repr

/-- A raw delimited file: its header row and its data rows. -/
structure RawTable where
  header : List String
  rows : List RawRow
deriving DecidableEq, Repr

/-- The fixed column subset selected at App.py lines 17-19. -/
def requiredColumns : List String :=
  ["id", "name", "neighbourhood", "room_type", "price", "latitude", "longitude",
   "number_of_reviews", "availability_365", "last_review", "reviews_per_month"]

/-- Load-time failure: a required column is absent from the header
(pandas raises KeyError at App.py line 17) or a price cell does not
parse (astype raises at line 21). -/
inductive DataError where
  | DataFormatError (col : String)
deriving DecidableEq, Repr

/-- `df.dropna()` (App.py line 20) keeps a row iff no selected cell is
missing. -/
def rowComplete (r : RawRow) : Bool :=
  r.id.isSome && r.name.isSome && r.neighbourhood.isSome && r.room_type.isSome &&
  r.price.isSome && r.latitude.isSome && r.longitude.isSome &&
  r.number_of_reviews.isSome && r.availability_365.isSome && r.last_review.isSome &&
  r.reviews_per_month.isSome

/-- `replace({'\\$': '', ',': ''}, regex=True)` (App.py line 21): delete
every dollar sign and comma from the price string. -/
def stripCurrency (s : String) : String :=
  String.mk (s.toList.filter (fun ch => ch ≠ '$' && ch ≠ ','))

/-- The value of a non-empty digit string, `none` on a non-digit. -/
def digitsVal (cs : List Char) : Option Nat :=
  cs.foldl (fun acc ch =>
    match acc with
    | none => none
    | some n => if ch.isDigit then some (n * 10 + (ch.toNat - 48)) else none) (some 0)

/-- `.astype(float)` on a stripped price string (App.py line 21):
`intPart` or `intPart.fracPart`, at least one digit overall, `none` when
the residual text is unparseable. -/
def parsePrice (s : String) : Option ℚ :=
  let t := stripCurrency s
  match t.splitOn "." with
  | [intPart] =>
      if intPart.isEmpty then none
      else (digitsVal intPart.toList).map (fun n => (n : ℚ))
  | [intPart, fracPart] =>
      if intPart.isEmpty && fracPart.isEmpty then none
      else
        match digitsVal intPart.toList, digitsVal fracPart.toList with
        | some a, some b => some ((a : ℚ) + (b : ℚ) / ((10 : ℚ) ^ fracPart.length))
        | _, _ => none
  | _ => none

/-- Convert one complete raw row to a Listing, parsing its price;
`none` when a cell is missing or the price does not parse. -/
def toListing (r : RawRow) : Option Listing :=
  match r.id, r.name, r.neighbourhood, r.room_type, r.price, r.latitude, r.longitude,
      r.number_of_reviews, r.availability_365, r.last_review, r.reviews_per_month with
  | some i, some nm, some nb, some rt, some ps, some la, some lo, some nr, some av,
      some lrv, some rpm =>
      (parsePrice ps).map (fun p =>
        { id := i, name := nm, neighbourhood := nb, room_type := rt, price := p,
          latitude := la, longitude := lo, number_of_reviews := nr,
          availability_365 := av, last_review := some lrv, reviews_per_month := rpm })
  | _, _, _, _, _, _, _, _, _, _, _ => none

/-- `load_data` (App.py lines 14-26): project to the fixed column list
(fails when a required column is absent from the header), drop
incomplete rows, parse the price column (fails when a retained price
does not parse), parse the review date.  Failure produces no dataset at
all. -/
def load_data (t : RawTable) : Except DataError (List Listing) :=
  match requiredColumns.find? (fun c => ! t.header.contains c) with
  | some c => Except.error (DataError.DataFormatError c)
  | none =>
      match (t.rows.filter rowComplete).mapM toListing with
      | some ls => Except.ok ls
      | none => Except.error (DataError.DataFormatError "price")

/-- C8: loading a table whose header lacks the required `price` column
fails with a DataFormatError naming a missing column, and the failure is
fatal: no dataset of any kind is produced. -/
theorem C8_missing_column_fails (t : RawTable)
    (h : t.header.contains "price" = false) :
    (∃ c, load_data t = Except.error (DataError.DataFormatError c)) ∧
    ∀ ds, load_data t ≠ Except.ok ds := by
  have hfind : (requiredColumns.find? (fun c => ! t.header.contains c)).isSome := by
    apply List.find?_isSome.mpr
    refine ⟨"price", by simp [requiredColumns], by rw [h]; rfl⟩
  rcases Option.isSome_iff_exists.mp hfind with ⟨c, hc⟩
  have hl : load_data t = Except.error (DataError.DataFormatError c) := by
    rw [load_data, hc]
  exact ⟨⟨c, hl⟩, fun ds hds => by rw [hl] at hds; exact Except.noConfusion hds⟩

/-- A raw table whose header has every required column except `price`. -/
def tableMissingPrice : RawTable :=
  { header := ["id", "name", "neighbourhood", "room_type", "latitude", "longitude",
      "number_of_reviews", "availability_365", "last_review", "reviews_per_month"],
    rows := [] }

/-- Witness for C8 at a concrete header lacking `price`. -/
theorem C8_missing_column_fails_witness :
    tableMissingPrice.header.contains "price" = false ∧
    (∃ c, load_data tableMissingPrice = Except.error (DataError.DataFormatError c)) ∧
    ∀ ds, load_data tableMissingPrice ≠ Except.ok ds :=
  ⟨by decide, (C8_missing_column_fails tableMissingPrice (by decide)).1,
    (C8_missing_column_fails tableMissingPrice (by decide)).2⟩

/-- Witness for the amended C6 at a concrete compliant table for the
tied two-neighbourhood view: the counts sum to the view's size and the
neighbourhood names are distinct. -/
theorem C6_neighborhood_summary_spec_witness :
    isNeighborhoodSummaryOf dsTied [summaryArbutus, summaryDunbar] ∧
    ([summaryArbutus, summaryDunbar].map (fun s => s.num_listings)).sum =
      dsTied.length ∧
    ([summaryArbutus, summaryDunbar].map (fun s => s.neighbourhood)).Nodup :=
  have hin : isNeighborhoodSummaryOf dsTied [summaryArbutus, summaryDunbar] :=
    ⟨by rw [neighborhoodAgg_dsTied], by
      refine List.Pairwise.cons ?_ (List.pairwise_singleton _ _)
      intro b hb
      rw [List.mem_singleton] at hb
      subst hb
      decide⟩
  ⟨hin, (C6_neighborhood_summary_spec dsTied _ hin).2.2.2.2,
    (C6_neighborhood_summary_spec dsTied _ hin).1⟩

/-- Witness for C4 at a concrete two-row view with `n = 5 ≥ |view|`. -/
theorem C4_cheapest_witness :
    dsPrices.length ≤ 5 ∧ cheapest dsPrices 5 = sortByPriceAsc dsPrices :=
  ⟨by decide, (C4_cheapest dsPrices 5).2.2.2.2.2 (by decide)⟩

/-- Witness for the amended C3 at a concrete one-row dataset. -/
theorem C3_default_criteria_witness :
    sampleListing.neighbourhood ∈ (defaultCriteria [sampleListing]).neighbourhoods ∧
    sampleListing.room_type ∈ (defaultCriteria [sampleListing]).room_types ∧
    (defaultCriteria [sampleListing]).price_range = (50, 300) ∧
    (defaultCriteria [sampleListing]).availability = (0, 365) ∧
    (defaultCriteria [sampleListing]).reviews_per_month_range =
      (0, (colMax ([sampleListing].map (·.reviews_per_month))).getD 0) :=
  C3_default_criteria [sampleListing] sampleListing (List.mem_singleton.mpr rfl)
